import Mathlib

/-
  Verification development for the transactional orchestration core of a
  blogging-platform backend: the event bus (app/events/core.py), the durable
  event bus (app/events/infrastructure/persistent_bus.py), the unit of work
  (app/adapters/orm/unit_of_work.py), the transaction utilities
  (app/shared/transaction.py) and the engine provider
  (app/adapters/orm/engine.py), shallowly embedded in Lean.

  Python exceptions are modelled as numeric codes; a computation that may
  raise returns an Except value.  Asynchronous functions are modelled as
  plain functions (the event loop interleaving is irrelevant to the
  properties proved here, which are all single-flow).
-/

namespace App

/-- Exceptions are modelled as numeric codes. -/
abbrev Exc := Nat

/-- A domain event (app/events/core.py, class DomainEvent): modelled by the
name of its runtime class, the module of that class, the list of class names
it is an instance of (its own class first, then its base classes), and its
instance dictionary, modelled as a list of (field name, numeric value)
pairs. -/
structure DomainEvent where
  typeName : String
  moduleName : String
  ancestors : List String
  fields : List (String × Nat)
deriving DecidableEq, Repr

/-- Python isinstance(event, event_type), with classes named by strings:
the event is an instance of every class in its ancestor list. -/
def isinstance (e : DomainEvent) (ty : String) : Bool :=
  e.ancestors.contains ty

/-- An event handler: an observable identity plus a body that receives the
event and the handler-side state and either returns a new state or raises.
Both sync handlers and async handlers are modelled this way (awaiting an
async handler sequentially is, for these properties, a plain call). -/
structure Handler (S : Type) where
  hid : Nat
  run : DomainEvent → S → Except Exc S

/-- EventBus registries (app/events/core.py): a Python dict from event type
to handler list, modelled as an insertion-ordered association list. -/
structure EventBus (S : Type) where
  subscribers : List (String × List (Handler S))
  asyncSubscribers : List (String × List (Handler S))

/-- The empty bus (EventBus.__init__). -/
def EventBus.empty (S : Type) : EventBus S := ⟨[], []⟩

/-- Append a handler to the bucket of an existing key, leaving other
entries untouched (dict lookup plus list append). -/
def registryAppend {S : Type} :
    List (String × List (Handler S)) → String → Handler S →
    List (String × List (Handler S))
  | [], _, _ => []
  | (t, hs) :: rest, ty, h =>
      if t = ty then (t, hs ++ [h]) :: rest
      else (t, hs) :: registryAppend rest ty h

/-- EventBus.subscribe body: if the event type is not a key yet, add it
with an empty bucket at the end (Python dicts preserve insertion order),
then append the handler to its bucket. -/
def addToRegistry {S : Type} (reg : List (String × List (Handler S)))
    (ty : String) (h : Handler S) : List (String × List (Handler S)) :=
  if (reg.map Prod.fst).contains ty then registryAppend reg ty h
  else reg ++ [(ty, [h])]

/-- EventBus.subscribe. -/
def subscribe {S : Type} (bus : EventBus S) (ty : String) (h : Handler S) :
    EventBus S :=
  { bus with subscribers := addToRegistry bus.subscribers ty h }

/-- EventBus.subscribe_async. -/
def subscribe_async {S : Type} (bus : EventBus S) (ty : String)
    (h : Handler S) : EventBus S :=
  { bus with asyncSubscribers := addToRegistry bus.asyncSubscribers ty h }

/-- Observable outcome of a publish call: the final handler-side state, the
errors logged by the per-handler except blocks (event type name paired with
the exception), and the sequence of handler invocations actually made, in
order.  The publish methods return to their caller without any exception on
every input: an Except does not appear in this result type precisely
because the source catches every handler exception. -/
structure PublishOut (S : Type) where
  state : S
  errors : List (String × Exc)
  calls : List Nat

/-- The inner loop of EventBus.publish: each handler in the bucket is
called inside try/except; on an exception the error is logged and the loop
continues with the next handler. -/
def runHandlerList {S : Type} (e : DomainEvent) (ty : String) :
    List (Handler S) → PublishOut S → PublishOut S
  | [], o => o
  | h :: rest, o =>
      match h.run e o.state with
      | .ok s' =>
          runHandlerList e ty rest
            { o with state := s', calls := o.calls ++ [h.hid] }
      | .error ex =>
          runHandlerList e ty rest
            { o with errors := o.errors ++ [(ty, ex)],
                     calls := o.calls ++ [h.hid] }

/-- The outer loop of EventBus.publish: iterate the registry entries in
order, and for each event type the event is an instance of, run its
handler bucket. -/
def publishLoop {S : Type} (e : DomainEvent) :
    List (String × List (Handler S)) → PublishOut S → PublishOut S
  | [], o => o
  | (ty, hs) :: rest, o =>
      if isinstance e ty then publishLoop e rest (runHandlerList e ty hs o)
      else publishLoop e rest o

/-- EventBus.publish. -/
def publish {S : Type} (bus : EventBus S) (e : DomainEvent) (s0 : S) :
    PublishOut S :=
  publishLoop e bus.subscribers ⟨s0, [], []⟩

/-- EventBus.publish_async: identical control flow over the async
registry, awaiting each handler sequentially. -/
def publish_async {S : Type} (bus : EventBus S) (e : DomainEvent) (s0 : S) :
    PublishOut S :=
  publishLoop e bus.asyncSubscribers ⟨s0, [], []⟩

/-- The handler identities subscribed to any type the event is an instance
of, in registry-then-bucket order: the invocation sequence the spec
promises. -/
def matchingHandlerIds {S : Type} (e : DomainEvent) :
    List (String × List (Handler S)) → List Nat
  | [] => []
  | (ty, hs) :: rest =>
      if isinstance e ty then
        hs.map Handler.hid ++ matchingHandlerIds e rest
      else matchingHandlerIds e rest

theorem runHandlerList_calls {S : Type} (e : DomainEvent) (ty : String) :
    ∀ (hs : List (Handler S)) (o : PublishOut S),
      (runHandlerList e ty hs o).calls = o.calls ++ hs.map Handler.hid := by
  intro hs
  induction hs with
  | nil => intro o; simp [runHandlerList]
  | cons h rest ih =>
      intro o
      unfold runHandlerList
      cases h.run e o.state with
      | ok s' => simp [ih]
      | error ex => simp [ih]

theorem publishLoop_calls {S : Type} (e : DomainEvent) :
    ∀ (reg : List (String × List (Handler S))) (o : PublishOut S),
      (publishLoop e reg o).calls = o.calls ++ matchingHandlerIds e reg := by
  intro reg
  induction reg with
  | nil => intro o; simp [publishLoop, matchingHandlerIds]
  | cons p rest ih =>
      intro o
      obtain ⟨ty, hs⟩ := p
      unfold publishLoop matchingHandlerIds
      by_cases hm : isinstance e ty
      · simp [hm, ih, runHandlerList_calls]
      · simp [hm, ih]

/-- Claim C1: for every event and every list of sync handlers subscribed to
a type the event is an instance of, publish invokes every such handler, in
registry-then-subscription order, regardless of which handlers raise: the
invocation sequence equals the statically determined matching-handler
sequence, so an exception raised by one handler (caught and logged inside
the loop) never prevents a later handler from being invoked, and no
exception escapes publish (its result type carries no exception).
publish_async has the same per-handler isolation over the async registry. -/
theorem publish_isolated_invokes_all {S : Type} (bus : EventBus S)
    (e : DomainEvent) (s0 : S) :
    (publish bus e s0).calls = matchingHandlerIds e bus.subscribers ∧
    (publish_async bus e s0).calls = matchingHandlerIds e bus.asyncSubscribers := by
  constructor
  · simpa using publishLoop_calls e bus.subscribers ⟨s0, [], []⟩
  · simpa using publishLoop_calls e bus.asyncSubscribers ⟨s0, [], []⟩

theorem matchingHandlerIds_append {S : Type} (e : DomainEvent) :
    ∀ (l1 l2 : List (String × List (Handler S))),
      matchingHandlerIds e (l1 ++ l2) =
        matchingHandlerIds e l1 ++ matchingHandlerIds e l2 := by
  intro l1
  induction l1 with
  | nil => intro l2; simp [matchingHandlerIds]
  | cons p rest ih =>
      intro l2
      obtain ⟨ty, hs⟩ := p
      by_cases hm : isinstance e ty
      · simp [matchingHandlerIds, hm, ih]
      · simp [matchingHandlerIds, hm, ih]

theorem mem_matchingHandlerIds_registryAppend {S : Type} (e : DomainEvent)
    (ty : String) (h : Handler S) (hinst : isinstance e ty = true) :
    ∀ (reg : List (String × List (Handler S))),
      ty ∈ reg.map Prod.fst →
      h.hid ∈ matchingHandlerIds e (registryAppend reg ty h) := by
  intro reg
  induction reg with
  | nil => intro hmem; simp at hmem
  | cons p rest ih =>
      intro hmem
      obtain ⟨t, hs⟩ := p
      by_cases ht : t = ty
      · subst ht
        simp [registryAppend, matchingHandlerIds, hinst]
      · have hmem' : ty ∈ rest.map Prod.fst := by
          simp at hmem
          rcases hmem with h1 | h2
          · exact absurd h1.symm ht
          · simpa using h2
        unfold registryAppend matchingHandlerIds
        simp only [ht, if_false]
        by_cases hm : isinstance e t
        · simp [hm, ih hmem']
        · simp [hm, ih hmem']

theorem mem_matchingHandlerIds_addToRegistry {S : Type} (e : DomainEvent)
    (ty : String) (h : Handler S) (hinst : isinstance e ty = true)
    (reg : List (String × List (Handler S))) :
    h.hid ∈ matchingHandlerIds e (addToRegistry reg ty h) := by
  unfold addToRegistry
  by_cases hc : (reg.map Prod.fst).contains ty = true
  · rw [if_pos hc]
    exact mem_matchingHandlerIds_registryAppend e ty h hinst reg
      (by simpa using hc)
  · rw [if_neg hc]
    rw [matchingHandlerIds_append]
    simp [matchingHandlerIds, hinst]

/-- Claim C7: publish dispatches by isinstance over every registered event
type, so subscribing a handler to a type the event is an instance of — in
particular a base class of the event's runtime class — guarantees the
handler is invoked when the event is published, for any prior registry
contents. -/
theorem publish_subclass_dispatch {S : Type} (bus : EventBus S)
    (ty : String) (h : Handler S) (e : DomainEvent) (s0 : S)
    (hinst : isinstance e ty = true) :
    h.hid ∈ (publish (subscribe bus ty h) e s0).calls := by
  have hc := publishLoop_calls e (subscribe bus ty h).subscribers
    (⟨s0, [], []⟩ : PublishOut S)
  unfold publish
  rw [hc]
  simp only [List.nil_append]
  exact mem_matchingHandlerIds_addToRegistry e ty h hinst bus.subscribers

/-- Claim C7 witness: a handler subscribed to the base type is invoked when
an instance of a derived type is published. -/
theorem publish_subclass_dispatch_witness :
    isinstance
        (⟨"Derived", "m", ["Derived", "Base", "DomainEvent"], []⟩ : DomainEvent)
        "Base" = true ∧
      (7 : Nat) ∈
        (publish
            (subscribe (EventBus.empty (List Nat)) "Base"
              ⟨7, fun _ s => .ok (s ++ [1])⟩)
            (⟨"Derived", "m", ["Derived", "Base", "DomainEvent"], []⟩ :
              DomainEvent)
            []).calls :=
  ⟨by decide,
    publish_subclass_dispatch (EventBus.empty (List Nat)) "Base"
      ⟨7, fun _ s => .ok (s ++ [1])⟩
      (⟨"Derived", "m", ["Derived", "Base", "DomainEvent"], []⟩ : DomainEvent)
      [] (by decide)⟩

/-!  Unit of Work (app/adapters/orm/unit_of_work.py).

The observable actions of AsyncUnitOfWork.__aexit__ on the session, in the
order the method performs them, plus the two logger.error calls of its
cleanup paths.  The session's primitive operations may themselves raise;
their behaviour is a parameter. -/

/-- One observable step of the __aexit__ body. -/
inductive SAction
  | commitA
  | rollbackA
  | closeA
  | logCleanup (e : Exc)
  | logRollback (e : Exc)
deriving DecidableEq, Repr

/-- How the session's primitives behave when called: commit and close raise
the given exception when some, and rollback's outcome may depend on how
many times rollback has been called before (the method can call it
twice). -/
structure SessionBehavior where
  commitExc : Option Exc
  rollbackExc : Nat → Option Exc
  closeExc : Option Exc

/-- AsyncUnitOfWork.__aexit__: given the in-flight exception of the with
body (none on clean exit) and the session behaviour, produce the sequence
of session actions performed and the exception the method itself raises,
if any.  The body is try (rollback-or-commit) / except (log, best-effort
rollback with its own except+log, re-raise the cleanup error) / finally
(close); an exception raised by close in the finally block replaces the
one being raised. -/
def aexitRun (b : SessionBehavior) (excIn : Option Exc) :
    List SAction × Option Exc :=
  let tryPart : List SAction × Option Exc :=
    match excIn with
    | some _ =>
        match b.rollbackExc 0 with
        | none => ([.rollbackA], none)
        | some e1 =>
            match b.rollbackExc 1 with
            | none =>
                ([.rollbackA, .logCleanup e1, .rollbackA], some e1)
            | some e2 =>
                ([.rollbackA, .logCleanup e1, .rollbackA, .logRollback e2],
                  some e1)
    | none =>
        match b.commitExc with
        | none => ([.commitA], none)
        | some e1 =>
            match b.rollbackExc 0 with
            | none => ([.commitA, .logCleanup e1, .rollbackA], some e1)
            | some e2 =>
                ([.commitA, .logCleanup e1, .rollbackA, .logRollback e2],
                  some e1)
  match b.closeExc with
  | some ce => (tryPart.1 ++ [.closeA], some ce)
  | none => (tryPart.1 ++ [.closeA], tryPart.2)

/-- The exception the caller of the with-statement observes after the scope
exits: whatever __aexit__ raised, or else the original in-flight exception
(the method returns None, which never suppresses it). -/
def aexitPropagated (b : SessionBehavior) (excIn : Option Exc) : Option Exc :=
  match (aexitRun b excIn).2 with
  | some e => some e
  | none => excIn

theorem aexitRun_getLast_close (b : SessionBehavior) (excIn : Option Exc) :
    (aexitRun b excIn).1.getLast? = some .closeA := by
  unfold aexitRun
  rcases excIn with _ | e
  · rcases hce : b.closeExc with _ | ce <;>
      rcases hc : b.commitExc with _ | e1 <;>
        rcases h0 : b.rollbackExc 0 with _ | e2 <;> simp [hce, hc, h0]
  · rcases hce : b.closeExc with _ | ce <;>
      rcases h0 : b.rollbackExc 0 with _ | e1 <;>
        rcases h1 : b.rollbackExc 1 with _ | e2 <;> simp [hce, h0, h1]

/-- Claim C3: on every exit path of the unit-of-work scope — clean exit,
business exception, commit failure, rollback failure, even close failure —
the session close is performed, as the final action before control leaves
__aexit__. -/
theorem aexit_always_closes (b : SessionBehavior) (excIn : Option Exc) :
    (aexitRun b excIn).1.getLast? = some .closeA :=
  aexitRun_getLast_close b excIn

/-- Claim C4 counterexample: scope exits with business exception 3 while
rollback raises 7 and close succeeds.  The claim says the original
business exception (3) propagates to the caller; in fact __aexit__
re-raises the rollback failure, so the caller observes 7, not 3. -/
theorem rollback_failure_propagation_counterexample :
    ¬ (aexitPropagated ⟨none, fun _ => some 7, none⟩ (some 3) = some 3) := by
  decide

/-- Claim C4, amended: when a unit-of-work scope exits with a business
exception and the rollback itself raises, the rollback failure is logged,
the session close is still attempted, and — provided close itself succeeds
— the exception that propagates to the caller is the rollback failure, not
the original business exception (the except block re-raises the cleanup
error, which replaces the in-flight exception). -/
theorem rollback_failure_amended (b : SessionBehavior) (e r : Exc)
    (hrb : b.rollbackExc 0 = some r) (hcl : b.closeExc = none) :
    SAction.logCleanup r ∈ (aexitRun b (some e)).1 ∧
      (aexitRun b (some e)).1.getLast? = some .closeA ∧
      aexitPropagated b (some e) = some r := by
  refine ⟨?_, aexitRun_getLast_close b (some e), ?_⟩
  · unfold aexitRun
    rcases h1 : b.rollbackExc 1 with _ | e2 <;> simp [hrb, hcl, h1]
  · unfold aexitPropagated aexitRun
    rcases h1 : b.rollbackExc 1 with _ | e2 <;> simp [hrb, hcl, h1]

/-- Claim C4 amended witness: concrete session whose rollback always raises
7 and whose close succeeds, with business exception 3. -/
theorem rollback_failure_amended_witness :
    (⟨none, fun _ => some 7, none⟩ : SessionBehavior).rollbackExc 0 = some 7 ∧
      (⟨none, fun _ => some 7, none⟩ : SessionBehavior).closeExc = none ∧
      (SAction.logCleanup 7 ∈
          (aexitRun ⟨none, fun _ => some 7, none⟩ (some 3)).1 ∧
        (aexitRun ⟨none, fun _ => some 7, none⟩ (some 3)).1.getLast? =
          some .closeA ∧
        aexitPropagated ⟨none, fun _ => some 7, none⟩ (some 3) = some 7) :=
  ⟨rfl, rfl, rollback_failure_amended ⟨none, fun _ => some 7, none⟩ 3 7 rfl rfl⟩

/-!  Bulk transaction coordinator (app/shared/transaction.py,
BulkTransactionManager).  Operations are async closures taking the unit of
work; each is modelled by an observable identity and a body acting on the
session state that either returns a numeric result with a new state or
raises. -/

/-- A queued bulk operation. -/
structure Op (S : Type) where
  oid : Nat
  run : S → Except Exc (Nat × S)

/-- BulkTransactionManager: holds the ordered list of pending operations. -/
structure BulkTransactionManager (S : Type) where
  operations : List (Op S)

/-- BulkTransactionManager.add_operation: append to the queue. -/
def add_operation {S : Type} (m : BulkTransactionManager S) (op : Op S) :
    BulkTransactionManager S :=
  ⟨m.operations ++ [op]⟩

/-- BulkTransactionManager.clear: empty the queue. -/
def bulkClear {S : Type} (_ : BulkTransactionManager S) :
    BulkTransactionManager S :=
  ⟨[]⟩

/-- The for-loop of execute_all: run the operations in order against the
evolving session state, recording which operations were invoked and
collecting results; the per-operation except block only logs and
re-raises, so the first error aborts the loop with that exception. -/
def runOpsLoop {S : Type} :
    List (Op S) → S → List Nat → List Nat →
    List Nat × Except Exc (List Nat × S)
  | [], s, execd, acc => (execd, .ok (acc, s))
  | op :: rest, s, execd, acc =>
      match op.run s with
      | .ok (r, s') => runOpsLoop rest s' (execd ++ [op.oid]) (acc ++ [r])
      | .error e => (execd ++ [op.oid], .error e)

/-- Observable outcome of execute_all: which operations were invoked (in
order), the value returned or exception raised to the caller, how many
unit-of-work scopes were opened, and the session actions of the scope's
__aexit__ (empty when no scope was opened). -/
structure BulkOut where
  executed : List Nat
  outcome : Except Exc (List Nat)
  uowOpens : Nat
  exitTrace : List SAction

/-- BulkTransactionManager.execute_all: with an empty queue, return []
without opening a unit of work; otherwise open exactly one unit of work,
run the loop inside it, and exit the scope — on a clean loop the scope
commits (a commit failure propagates instead of the results), on a loop
error the scope sees that exception and whatever __aexit__ leaves
propagating reaches the caller.  The operations list itself is left
untouched. -/
def execute_all {S : Type} (m : BulkTransactionManager S)
    (b : SessionBehavior) (s0 : S) : BulkOut × BulkTransactionManager S :=
  if m.operations.isEmpty then (⟨[], .ok [], 0, []⟩, m)
  else
      match runOpsLoop m.operations s0 [] [] with
      | (execd, .ok (acc, _)) =>
          let ex := aexitRun b none
          match ex.2 with
          | none => (⟨execd, .ok acc, 1, ex.1⟩, m)
          | some ce => (⟨execd, .error ce, 1, ex.1⟩, m)
      | (execd, .error e) =>
          let ex := aexitRun b (some e)
          match ex.2 with
          | some e' => (⟨execd, .error e', 1, ex.1⟩, m)
          | none => (⟨execd, .error e, 1, ex.1⟩, m)

theorem runOpsLoop_append {S : Type} :
    ∀ (pre rest : List (Op S)) (s : S) (execd acc : List Nat),
      runOpsLoop (pre ++ rest) s execd acc =
        match runOpsLoop pre s execd acc with
        | (ex2, .ok (acc2, s2)) => runOpsLoop rest s2 ex2 acc2
        | (ex2, .error e) => (ex2, .error e) := by
  intro pre
  induction pre with
  | nil => intro rest s execd acc; simp [runOpsLoop]
  | cons op pre1 ih =>
      intro rest s execd acc
      simp only [List.cons_append, runOpsLoop]
      cases op.run s with
      | ok rs => exact ih rest rs.2 (execd ++ [op.oid]) (acc ++ [rs.1])
      | error e => rfl

/-- Claim C2: if the operations are a prefix that succeeds followed by an
operation that raises e (followed by anything), then — with a session
whose rollback and close succeed — execute_all raises that same e, the
invoked operations are exactly the prefix plus the failing one (nothing
after it runs), exactly one unit of work is opened, its exit rolls back
and never commits, and no list of results is returned (the outcome is the
exception, not a value). -/
theorem execute_all_aborts_on_failure {S : Type} (pre post : List (Op S))
    (op : Op S) (b : SessionBehavior) (s0 : S) (s1 : S)
    (ex1 acc : List Nat) (e : Exc)
    (hpre : runOpsLoop pre s0 [] [] = (ex1, .ok (acc, s1)))
    (hop : op.run s1 = .error e)
    (hrb : b.rollbackExc 0 = none) (hcl : b.closeExc = none) :
    let out := (execute_all (⟨pre ++ op :: post⟩ : BulkTransactionManager S)
      b s0).1
    out.outcome = .error e ∧
      out.executed = ex1 ++ [op.oid] ∧
      out.uowOpens = 1 ∧
      SAction.rollbackA ∈ out.exitTrace ∧
      SAction.commitA ∉ out.exitTrace := by
  intro out
  have hloop : runOpsLoop (pre ++ op :: post) s0 [] [] =
      (ex1 ++ [op.oid], .error e) := by
    rw [runOpsLoop_append pre (op :: post) s0 [] []]
    rw [hpre]
    simp [runOpsLoop, hop]
  have hexit : aexitRun b (some e) = ([.rollbackA, .closeA], none) := by
    unfold aexitRun
    simp [hrb, hcl]
  have hout : out = ⟨ex1 ++ [op.oid], .error e, 1, [.rollbackA, .closeA]⟩ := by
    show (execute_all (⟨pre ++ op :: post⟩ : BulkTransactionManager S)
      b s0).1 = _
    unfold execute_all
    rw [if_neg (by simp)]
    rw [hloop]
    simp [hexit]
  rw [hout]
  refine ⟨rfl, rfl, rfl, by simp, by simp⟩

/-- Claim C2 witness: op1 (id 1) succeeds with result 5, op2 (id 2) raises
9; with a healthy session, execute_all raises 9, runs exactly op1 then
op2, opens one scope, rolls back and never commits. -/
theorem execute_all_aborts_on_failure_witness :
    runOpsLoop [(⟨1, fun s => .ok (5, s)⟩ : Op Nat)] 0 [] [] =
        ([1], .ok ([5], 0)) ∧
      (⟨2, fun _ => .error 9⟩ : Op Nat).run 0 = .error 9 ∧
      (⟨none, fun _ => none, none⟩ : SessionBehavior).rollbackExc 0 = none ∧
      (⟨none, fun _ => none, none⟩ : SessionBehavior).closeExc = none ∧
      ((execute_all
          (⟨[⟨1, fun s => .ok (5, s)⟩, ⟨2, fun _ => .error 9⟩]⟩ :
            BulkTransactionManager Nat)
          ⟨none, fun _ => none, none⟩ 0).1.outcome = .error 9 ∧
        (execute_all
          (⟨[⟨1, fun s => .ok (5, s)⟩, ⟨2, fun _ => .error 9⟩]⟩ :
            BulkTransactionManager Nat)
          ⟨none, fun _ => none, none⟩ 0).1.executed = [1, 2] ∧
        (execute_all
          (⟨[⟨1, fun s => .ok (5, s)⟩, ⟨2, fun _ => .error 9⟩]⟩ :
            BulkTransactionManager Nat)
          ⟨none, fun _ => none, none⟩ 0).1.uowOpens = 1 ∧
        SAction.rollbackA ∈ (execute_all
          (⟨[⟨1, fun s => .ok (5, s)⟩, ⟨2, fun _ => .error 9⟩]⟩ :
            BulkTransactionManager Nat)
          ⟨none, fun _ => none, none⟩ 0).1.exitTrace ∧
        SAction.commitA ∉ (execute_all
          (⟨[⟨1, fun s => .ok (5, s)⟩, ⟨2, fun _ => .error 9⟩]⟩ :
            BulkTransactionManager Nat)
          ⟨none, fun _ => none, none⟩ 0).1.exitTrace) :=
  ⟨rfl, rfl, rfl, rfl,
    execute_all_aborts_on_failure
      [(⟨1, fun s => .ok (5, s)⟩ : Op Nat)] []
      (⟨2, fun _ => .error 9⟩ : Op Nat)
      ⟨none, fun _ => none, none⟩ 0 0 [1] [5] 9 rfl rfl rfl rfl⟩

/-- Claim C8 counterexample: a coordinator holding one succeeding operation
(id 1).  The claim says execute_all clears the queue, so a second
execute_all with nothing added in between would execute no operations; in
fact the source never clears the queue, and the second run invokes
operation 1 again. -/
theorem execute_all_queue_not_cleared_counterexample :
    ¬ ((execute_all
          ((execute_all
              (⟨[⟨1, fun s => .ok (5, s)⟩]⟩ : BulkTransactionManager Nat)
              ⟨none, fun _ => none, none⟩ 0).2)
          ⟨none, fun _ => none, none⟩ 0).1.executed = []) := by
  decide

/-- Claim C8, amended: execute_all leaves the operation queue exactly as it
found it — the queue is emptied only by an explicit clear(); after a
clear(), execute_all executes no operations and returns the empty result
list. -/
theorem execute_all_queue_persists {S : Type} (m : BulkTransactionManager S)
    (b : SessionBehavior) (s0 : S) :
    (execute_all m b s0).2.operations = m.operations ∧
      (execute_all (bulkClear m) b s0).1.executed = [] ∧
      (execute_all (bulkClear m) b s0).1.outcome = .ok [] := by
  refine ⟨?_, by simp [execute_all, bulkClear], by simp [execute_all, bulkClear]⟩
  unfold execute_all
  by_cases h : m.operations.isEmpty = true
  · rw [if_pos h]
  · rw [if_neg h]
    rcases hr : runOpsLoop m.operations s0 [] [] with ⟨execd, res⟩
    cases res with
    | ok p =>
        rcases hax : (aexitRun b none).2 with _ | ce <;> simp [hax]
    | error e =>
        rcases hax : (aexitRun b (some e)).2 with _ | e' <;> simp [hax]

/-!  Transactional decorator (app/shared/transaction.py, transactional).
Python argument values are modelled by their attribute names (what hasattr
can observe) and an identity tag; the wrapped function receives a list of
such values. -/

/-- A Python value as the decorator's wrapper observes it. -/
structure PyVal where
  attrs : List String
  tag : Nat
deriving DecidableEq, Repr

/-- The wrapper's bound-method heuristic: args is non-empty and its first
element has an attribute named like the wrapped function. -/
def boundMethodDetected (funcName : String) (args : List PyVal) : Bool :=
  match args with
  | [] => false
  | a0 :: _ => a0.attrs.contains funcName

/-- The wrapper's argument assembly: func(args[0], uow, *args[1:]) when the
bound-method heuristic fires, func(uow, *args) otherwise. -/
def injectArgs (funcName : String) (uow : PyVal) (args : List PyVal) :
    List PyVal :=
  match args with
  | [] => [uow]
  | a0 :: rest =>
      if a0.attrs.contains funcName then a0 :: uow :: rest
      else uow :: a0 :: rest

/-- Observable outcome of one call of the wrapped function: the positional
argument list presented to the wrapped function, the value returned or
exception raised to the caller, and the unit-of-work exit actions. -/
structure WrapOut where
  presented : List PyVal
  result : Except Exc (Option Nat)
  exitTrace : List SAction

/-- The decorator's wrapper body: open a fresh unit of work, call the
function with the unit of work injected into the arguments, commit on
clean return via the scope exit, and on any exception (from the function
or from the scope exit) log if configured and either re-raise or return
None.  The wrapped function is modelled as a function of its presented
argument list. -/
def transactionalWrapper (funcName : String) (reraise : Bool)
    (f : List PyVal → Except Exc Nat) (uow : PyVal) (b : SessionBehavior)
    (args : List PyVal) : WrapOut :=
  let presented := injectArgs funcName uow args
  match f presented with
  | .ok r =>
      let ex := aexitRun b none
      match ex.2 with
      | none => ⟨presented, .ok (some r), ex.1⟩
      | some ce =>
          if reraise then ⟨presented, .error ce, ex.1⟩
          else ⟨presented, .ok none, ex.1⟩
  | .error e =>
      let ex := aexitRun b (some e)
      let prop := match ex.2 with | some ce => ce | none => e
      if reraise then ⟨presented, .error prop, ex.1⟩
      else ⟨presented, .ok none, ex.1⟩

/-- Claim C5 counterexample: wrapping a function named doit and calling it
with a first argument that has an attribute named doit (a bound-method
call, tag 1) and a second argument (tag 2), with the unit of work being
the value tagged 99.  The claim says the unit of work is always the first
positional parameter presented to the function; in fact the wrapper
presents the receiver first and the unit of work second. -/
theorem transactional_uow_first_arg_counterexample :
    ¬ ((transactionalWrapper "doit" true (fun _ => .ok 0) ⟨[], 99⟩
          ⟨none, fun _ => none, none⟩
          [⟨["doit"], 1⟩, ⟨[], 2⟩]).presented.head? =
        some (⟨[], 99⟩ : PyVal)) := by
  decide

/-- Claim C5, amended: the wrapper presents the wrapped function with the
original arguments and the unit of work inserted at position 0, except
when the first argument has an attribute named after the function (the
bound-method heuristic), in which case the unit of work is inserted at
position 1, after the receiver; in every case, removing the inserted unit
of work recovers exactly the original argument list, so all other
parameters pass through unchanged in their original order. -/
theorem transactional_uow_injection (funcName : String) (reraise : Bool)
    (f : List PyVal → Except Exc Nat) (uow : PyVal) (b : SessionBehavior)
    (args : List PyVal) :
    (transactionalWrapper funcName reraise f uow b args).presented =
        args.take (if boundMethodDetected funcName args then 1 else 0) ++
          uow ::
            args.drop (if boundMethodDetected funcName args then 1 else 0) ∧
      (transactionalWrapper funcName reraise f uow b args).presented.eraseIdx
          (if boundMethodDetected funcName args then 1 else 0) = args := by
  have hpres : (transactionalWrapper funcName reraise f uow b args).presented =
      injectArgs funcName uow args := by
    unfold transactionalWrapper
    cases hf : f (injectArgs funcName uow args) with
    | ok r =>
        rcases hax : (aexitRun b none).2 with _ | ce
        · simp [hf, hax]
        · simp [hf, hax]
          cases reraise <;> simp
    | error e =>
        cases reraise <;> simp [hf]
  rw [hpres]
  rcases args with _ | ⟨a0, rest⟩
  · simp [injectArgs, boundMethodDetected, List.eraseIdx]
  · by_cases hb : funcName ∈ a0.attrs
    · simp [injectArgs, boundMethodDetected, hb, List.eraseIdx]
    · simp [injectArgs, boundMethodDetected, hb, List.eraseIdx]

/-!  Engine provider (app/adapters/orm/engine.py).  The module-level cache
(_engine_instance, _engine_url, _engine_test_mode) is modelled as explicit
state; engines are identified by a creation counter, so a freshly
constructed engine is always distinct from any engine recorded earlier. -/

/-- The settings the provider reads on each call. -/
structure EngineConfig where
  testMode : Bool
  databaseUrl : String
  testDatabaseUrl : String

/-- The provider's module-level state: the cached engine with the url and
test-mode it was built for, plus the construction counter of the model. -/
structure EngineState where
  engineInstance : Option Nat
  engineUrl : Option String
  engineTestMode : Option Bool
  nextEngineId : Nat

/-- Result of get_async_engine: the engine handed out, whether this call
constructed it (as opposed to returning the cached one), and the state
afterwards. -/
structure EngineOut where
  engine : Nat
  constructed : Bool
  state : EngineState

/-- get_async_engine: derive the url from the current settings; when a
cached engine exists but its url or test-mode differs, drop it (with a
warning); return the cached engine when one remains, otherwise construct a
new engine and record it together with its url and test-mode. -/
def get_async_engine (cfg : EngineConfig) (st : EngineState) : EngineOut :=
  let url := if cfg.testMode then cfg.testDatabaseUrl else cfg.databaseUrl
  let st1 :=
    match st.engineInstance with
    | some _ =>
        if st.engineUrl ≠ some url ∨ st.engineTestMode ≠ some cfg.testMode
        then { st with engineInstance := none }
        else st
    | none => st
  match st1.engineInstance with
  | some eng => ⟨eng, false, st1⟩
  | none =>
      ⟨st1.nextEngineId, true,
        ⟨some st1.nextEngineId, some url, some cfg.testMode,
          st1.nextEngineId + 1⟩⟩

/-- Modelled from the spec: reset_engine is imported by the test suite from
app.adapters.orm.engine but its body is not present in the provided source;
per the Engine Provider contract, reset() forcibly drops the cache so the
next get_engine call builds a fresh engine. -/
def reset_engine (st : EngineState) : EngineState :=
  { st with engineInstance := none, engineUrl := none, engineTestMode := none }

/-- The cache is well-formed when any cached engine was handed out by an
earlier construction, i.e. its identity is below the construction
counter. -/
def cacheWF (st : EngineState) : Prop :=
  match st.engineInstance with
  | none => True
  | some eng => eng < st.nextEngineId

theorem get_async_engine_id_lt (cfg : EngineConfig) (st : EngineState)
    (hwf : cacheWF st) :
    (get_async_engine cfg st).engine <
      (get_async_engine cfg st).state.nextEngineId := by
  unfold get_async_engine
  rcases hinst : st.engineInstance with _ | eng
  · simp [hinst]
  · by_cases hchg : st.engineUrl ≠
        some (if cfg.testMode then cfg.testDatabaseUrl else cfg.databaseUrl) ∨
        st.engineTestMode ≠ some cfg.testMode
    · simp [hinst, hchg]
    · simp [hinst, hchg]
      unfold cacheWF at hwf
      rw [hinst] at hwf
      exact hwf

/-- Claim C9: reset_engine drops the cached engine, and the next
get_async_engine call after a reset constructs a fresh engine — it takes
the construction branch and the engine it returns differs from the one the
previous call returned — for any well-formed starting state and any
configuration. -/
theorem reset_engine_fresh (cfg : EngineConfig) (st : EngineState)
    (hwf : cacheWF st) :
    (reset_engine (get_async_engine cfg st).state).engineInstance = none ∧
      (get_async_engine cfg
          (reset_engine (get_async_engine cfg st).state)).constructed = true ∧
      (get_async_engine cfg
          (reset_engine (get_async_engine cfg st).state)).engine ≠
        (get_async_engine cfg st).engine := by
  have hlt := get_async_engine_id_lt cfg st hwf
  refine ⟨rfl, ?_, ?_⟩
  · unfold get_async_engine reset_engine
    simp
  · have h2 : (get_async_engine cfg
        (reset_engine (get_async_engine cfg st).state)).engine =
        (get_async_engine cfg st).state.nextEngineId := by
      unfold get_async_engine reset_engine
      simp
    rw [h2]
    exact fun hEq => absurd hEq.symm (Nat.ne_of_lt hlt)

/-- Claim C9 witness: empty cache, counter 0, test-mode configuration. -/
theorem reset_engine_fresh_witness :
    cacheWF ⟨none, none, none, 0⟩ ∧
      ((reset_engine
            (get_async_engine ⟨true, "prod", "test"⟩
              ⟨none, none, none, 0⟩).state).engineInstance = none ∧
        (get_async_engine ⟨true, "prod", "test"⟩
            (reset_engine
              (get_async_engine ⟨true, "prod", "test"⟩
                ⟨none, none, none, 0⟩).state)).constructed = true ∧
        (get_async_engine ⟨true, "prod", "test"⟩
            (reset_engine
              (get_async_engine ⟨true, "prod", "test"⟩
                ⟨none, none, none, 0⟩).state)).engine ≠
          (get_async_engine ⟨true, "prod", "test"⟩
              ⟨none, none, none, 0⟩).engine) :=
  ⟨trivial,
    reset_engine_fresh ⟨true, "prod", "test"⟩ ⟨none, none, none, 0⟩ trivial⟩

/-!  Durable event bus (app/events/infrastructure/persistent_bus.py).
The log file is modelled as an optional list of lines (none = the file
does not exist); a line is either blank, or a well-formed serialized
record, or a non-blank line that fails to parse as JSON. -/

/-- One persisted event record, as _serialize_event builds it. -/
structure EventRecord where
  timestamp : String
  event_type : String
  event_module : String
  data : List (String × Nat)
deriving DecidableEq, Repr

/-- One line of the log file. -/
inductive LogLine
  | blank
  | malformed
  | record (r : EventRecord)
deriving DecidableEq, Repr

/-- PersistentEventBus._serialize_event: timestamp (the current UTC time,
supplied as an argument to keep the embedding pure), the event's class
name and module, and its instance dictionary. -/
def serialize_event (ts : String) (e : DomainEvent) : EventRecord :=
  ⟨ts, e.typeName, e.moduleName, e.fields⟩

/-- A persistent event bus: the in-memory registries plus the log file. -/
structure PersistentEventBus (S : Type) where
  bus : EventBus S
  logFile : Option (List LogLine)

/-- PersistentEventBus._log_event: append one serialized line to the log
file (opening in append mode creates a missing file); a write failure is
caught and logged, leaving the file as it was. -/
def log_event {S : Type} (p : PersistentEventBus S) (ts : String)
    (writeExc : Option Exc) (e : DomainEvent) : PersistentEventBus S :=
  match writeExc with
  | some _ => p
  | none =>
      { p with
        logFile := some (p.logFile.getD [] ++
          [LogLine.record (serialize_event ts e)]) }

/-- PersistentEventBus.publish: log the event, then dispatch through the
base bus. -/
def persistentPublish {S : Type} (p : PersistentEventBus S) (ts : String)
    (writeExc : Option Exc) (e : DomainEvent) (s0 : S) :
    PersistentEventBus S × PublishOut S :=
  let p1 := log_event p ts writeExc e
  (p1, publish p1.bus e s0)

/-- The line loop of replay_events, with the surrounding try/except: blank
lines are skipped; a well-formed line is appended to the accumulator when
the filter is None or matches its event type; the first malformed line
raises inside the loop, the exception is caught and logged, and whatever
accumulated so far is returned. -/
def replayLoop : List LogLine → Option String → List EventRecord →
    List EventRecord
  | [], _, acc => acc
  | .blank :: rest, filt, acc => replayLoop rest filt acc
  | .malformed :: _, _, acc => acc
  | .record r :: rest, filt, acc =>
      replayLoop rest filt
        (if filt = none ∨ filt = some r.event_type then acc ++ [r] else acc)

/-- PersistentEventBus.replay_events: a missing file yields the empty
list; otherwise read the file line by line through the loop above. -/
def replay_events (file : Option (List LogLine)) (filt : Option String) :
    List EventRecord :=
  match file with
  | none => []
  | some lines => replayLoop lines filt []

theorem replayLoop_acc (lines : List LogLine) (filt : Option String) :
    ∀ acc : List EventRecord,
      replayLoop lines filt acc = acc ++ replayLoop lines filt [] := by
  induction lines with
  | nil => intro acc; simp [replayLoop]
  | cons l rest ih =>
      intro acc
      cases l with
      | blank => simpa [replayLoop] using ih acc
      | malformed => simp [replayLoop]
      | record r =>
          by_cases hf : filt = none ∨ filt = some r.event_type
          · simp only [replayLoop, hf, if_pos, if_true, List.nil_append]
            rw [ih (acc ++ [r]), ih [r]]
            simp
          · simp only [replayLoop, if_neg hf]
            exact ih acc

/-- Claim C6: publishing three events through the durable bus on an empty
log — the first and third of one type, the second of a different type —
and then replaying with the first type as filter returns exactly the first
and third records in publish order, while replaying with no filter returns
all three records in publish order. -/
theorem replay_round_trip {S : Type} (p0 : PersistentEventBus S)
    (ts1 ts2 ts3 : String) (e1 e2 e3 : DomainEvent) (s : S)
    (tA tB : String)
    (hfile : p0.logFile = some []) (h1 : e1.typeName = tA)
    (h2 : e2.typeName = tB) (h3 : e3.typeName = tA) (hne : tA ≠ tB) :
    replay_events
        ((persistentPublish
            ((persistentPublish
                ((persistentPublish p0 ts1 none e1 s).1)
                ts2 none e2 s).1)
            ts3 none e3 s).1).logFile (some tA) =
        [serialize_event ts1 e1, serialize_event ts3 e3] ∧
      replay_events
          ((persistentPublish
              ((persistentPublish
                  ((persistentPublish p0 ts1 none e1 s).1)
                  ts2 none e2 s).1)
              ts3 none e3 s).1).logFile none =
        [serialize_event ts1 e1, serialize_event ts2 e2,
          serialize_event ts3 e3] := by
  have hlog : ((persistentPublish
      ((persistentPublish
          ((persistentPublish p0 ts1 none e1 s).1)
          ts2 none e2 s).1)
      ts3 none e3 s).1).logFile =
      some [.record (serialize_event ts1 e1),
        .record (serialize_event ts2 e2),
        .record (serialize_event ts3 e3)] := by
    simp [persistentPublish, log_event, hfile]
  rw [hlog]
  constructor
  · unfold replay_events replayLoop
    simp [serialize_event, h1, h2, h3, hne, Ne.symm hne, replayLoop]
  · unfold replay_events replayLoop
    simp [serialize_event, replayLoop]

/-- Claim C6 witness: events of types A, B, A published at timestamps t1,
t2, t3 onto an empty log. -/
theorem replay_round_trip_witness :
    (⟨EventBus.empty Unit, some []⟩ :
        PersistentEventBus Unit).logFile = some [] ∧
      (⟨"A", "m", ["A"], []⟩ : DomainEvent).typeName = "A" ∧
      (⟨"B", "m", ["B"], []⟩ : DomainEvent).typeName = "B" ∧
      (⟨"A", "m", ["A"], [("k", 3)]⟩ : DomainEvent).typeName = "A" ∧
      "A" ≠ "B" ∧
      (replay_events
          ((persistentPublish
              ((persistentPublish
                  ((persistentPublish
                      (⟨EventBus.empty Unit, some []⟩ :
                        PersistentEventBus Unit)
                      "t1" none ⟨"A", "m", ["A"], []⟩ ()).1)
                  "t2" none ⟨"B", "m", ["B"], []⟩ ()).1)
              "t3" none ⟨"A", "m", ["A"], [("k", 3)]⟩ ()).1).logFile
          (some "A") =
        [serialize_event "t1" ⟨"A", "m", ["A"], []⟩,
          serialize_event "t3" ⟨"A", "m", ["A"], [("k", 3)]⟩] ∧
      replay_events
          ((persistentPublish
              ((persistentPublish
                  ((persistentPublish
                      (⟨EventBus.empty Unit, some []⟩ :
                        PersistentEventBus Unit)
                      "t1" none ⟨"A", "m", ["A"], []⟩ ()).1)
                  "t2" none ⟨"B", "m", ["B"], []⟩ ()).1)
              "t3" none ⟨"A", "m", ["A"], [("k", 3)]⟩ ()).1).logFile
          none =
        [serialize_event "t1" ⟨"A", "m", ["A"], []⟩,
          serialize_event "t2" ⟨"B", "m", ["B"], []⟩,
          serialize_event "t3" ⟨"A", "m", ["A"], [("k", 3)]⟩]) :=
  ⟨rfl, rfl, rfl, rfl, by decide,
    replay_round_trip (⟨EventBus.empty Unit, some []⟩ : PersistentEventBus Unit)
      "t1" "t2" "t3" ⟨"A", "m", ["A"], []⟩ ⟨"B", "m", ["B"], []⟩
      ⟨"A", "m", ["A"], [("k", 3)]⟩ () "A" "B" rfl rfl rfl rfl (by decide)⟩

theorem replayLoop_malformed (post : List LogLine) (filt : Option String) :
    ∀ (pre : List LogLine) (acc : List EventRecord),
      (∀ l ∈ pre, l ≠ LogLine.malformed) →
      replayLoop (pre ++ LogLine.malformed :: post) filt acc =
        replayLoop pre filt acc := by
  intro pre
  induction pre with
  | nil => intro acc _; simp [replayLoop]
  | cons l rest ih =>
      intro acc hpre
      cases l with
      | blank =>
          simp only [List.cons_append, replayLoop]
          exact ih acc fun x hx => hpre x (List.mem_cons_of_mem _ hx)
      | malformed =>
          exact absurd rfl (hpre LogLine.malformed (List.mem_cons_self _ _))
      | record r =>
          simp only [List.cons_append, replayLoop]
          exact ih _ fun x hx => hpre x (List.mem_cons_of_mem _ hx)

/-- Claim C10: when the log file's lines are a malformed-free prefix, then
a non-blank line that fails to parse, then anything, replay_events raises
nothing (it is total) and returns exactly what it would return for the
prefix alone: the records parsed before the failure, with every line after
the malformed one silently dropped. -/
theorem replay_malformed_line_truncates (pre post : List LogLine)
    (filt : Option String) (hpre : ∀ l ∈ pre, l ≠ LogLine.malformed) :
    replay_events (some (pre ++ LogLine.malformed :: post)) filt =
      replay_events (some pre) filt := by
  unfold replay_events
  exact replayLoop_malformed post filt pre [] hpre

/-- Claim C10 witness: one good record and a blank line before the
malformed line, one record after it; replay returns only the first
record. -/
theorem replay_malformed_line_truncates_witness :
    (∀ l ∈ [LogLine.record ⟨"t1", "A", "m", []⟩, LogLine.blank],
        l ≠ LogLine.malformed) ∧
      replay_events
          (some ([LogLine.record ⟨"t1", "A", "m", []⟩, LogLine.blank] ++
            LogLine.malformed :: [LogLine.record ⟨"t2", "B", "m", []⟩]))
          none =
        replay_events
          (some [LogLine.record ⟨"t1", "A", "m", []⟩, LogLine.blank]) none :=
  ⟨by decide,
    replay_malformed_line_truncates
      [LogLine.record ⟨"t1", "A", "m", []⟩, LogLine.blank]
      [LogLine.record ⟨"t2", "B", "m", []⟩] none (by decide)⟩

end App
